import Mathlib

/-!
A formal model of `src/app.py`, the Streamlit customer-churn predictor.

Tabular data is modelled as a `DataFrame`: a list of column names plus a
list of rows, each row an association list from column name to cell value.
Cell values are rationals (the app works on numerically encoded features;
predicted labels are the integers 0/1 embedded in `ℚ`, probabilities are
rationals). The classifier artifact is opaque to the app, so it is modelled
as a record `Model` holding a vectorized `predict` function and an optional
`predict_proba` function (`none` models `hasattr(model, "predict_proba")`
being false). The `st.cache_resource` memoization of `load_model` is
modelled by explicit state passing of a `CacheState`, and the in-place
pandas column assignments of the batch tab are additionally modelled on a
small heap of dataframes (`Store`) so that non-mutation of the uploaded
frame is a real statement.
-/

namespace ChurnApp

/-- A cell value of a dataframe. -/
abbrev Val := ℚ

/-- A dataframe row: an association list from column name to cell value. -/
abbrev Row := List (String × Val)

/-- Value of row `r` at column `c` (first matching entry), `none` if absent. -/
def Row.get (r : Row) (c : String) : Option Val :=
  (r.find? (fun p => p.1 == c)).map (fun p => p.2)

/-- A pandas dataframe: named columns and a list of rows. -/
structure DataFrame where
  cols : List String
  rows : List Row
deriving DecidableEq

/-- `app.py` lines 27-32: the canonical order of the 14 feature columns. -/
def FEATURE_ORDER : List String :=
  ["age", "gender", "tenure", "usage_frequency", "support_calls", "payment_delay",
   "total_spend", "last_interaction", "subscription_type_Basic",
   "subscription_type_Premium", "subscription_type_Standard",
   "contract_length_Annual", "contract_length_Monthly", "contract_length_Quarterly"]

/-- `app.py` line 121: `missing = [c for c in FEATURE_ORDER if c not in df.columns]`. -/
def missingColumns (df : DataFrame) : List String :=
  FEATURE_ORDER.filter (fun c => !(df.cols.contains c))

/-- Row projection underlying `df[FEATURE_ORDER]`: keep, in the order of the
key list `L`, exactly the entries named by `L`. -/
def projectRowOn (L : List String) (r : Row) : Row :=
  L.filterMap (fun c => (Row.get r c).map (fun v => (c, v)))

/-- `app.py` line 125: `df = df[FEATURE_ORDER]` builds a new frame holding
exactly the expected columns in canonical order. -/
def DataFrame.project (df : DataFrame) : DataFrame :=
  ⟨FEATURE_ORDER, df.rows.map (projectRowOn FEATURE_ORDER)⟩

/-- The numeric matrix a dataframe presents to the sklearn model: one list of
cell values per row, in the frame's column order. -/
def DataFrame.matrix (df : DataFrame) : List (List Val) :=
  df.rows.map (fun r => df.cols.filterMap (fun c => Row.get r c))

/-- The opaque classifier loaded from `best_churn_model.joblib`: a vectorized
label predictor and, optionally, a probability matrix predictor
(`none` models the absence of a `predict_proba` attribute). -/
structure Model where
  predict : List (List Val) → List Val
  predict_proba : Option (List (List Val) → List (List Val))

/-- Column 1 of a probability matrix row, as selected by `[:,1]`. -/
def probCol1 (pr : List Val) : Val := pr.getD 1 0

/-- `app.py` lines 93-96: `score_df` returns the label vector and, when the
model exposes `predict_proba`, the second column of its output. -/
def score_df (m : Model) (df : DataFrame) : List Val × Option (List Val) :=
  let proba := m.predict_proba.map (fun f => (f df.matrix).map probCol1)
  let pred := m.predict df.matrix
  (pred, proba)

/-- `Row.set r c v` models pandas `row[c] = v`: overwrite an existing entry
for `c`, otherwise append a new entry at the end. -/
def Row.set (r : Row) (c : String) (v : Val) : Row :=
  if (Row.get r c).isSome then
    r.map (fun p => if p.1 == c then (c, v) else p)
  else
    r ++ [(c, v)]

/-- Pandas column assignment `df[c] = vals`: every row gets its value,
and `c` is appended to the columns when new. -/
def DataFrame.setCol (df : DataFrame) (c : String) (vals : List Val) : DataFrame :=
  ⟨if df.cols.contains c then df.cols else df.cols ++ [c],
   df.rows.zipWith (fun r v => Row.set r c v) vals⟩

/-- Outcome of the batch tab on an uploaded frame: either the schema error
shown by `st.error` (carrying the list of missing columns it displays) or
the augmented frame. -/
inductive BatchResult where
  | schemaError (missing : List String)
  | scored (out : DataFrame)
deriving DecidableEq

/-- `app.py` lines 120-129: validate the uploaded frame, and only when no
expected column is missing project it, score it, and append `churn_pred`
and (when probabilities exist) `churn_proba`. -/
def batchScore (m : Model) (df : DataFrame) : BatchResult :=
  let missing := missingColumns df
  if missing.isEmpty then
    let proj := df.project
    let scored := score_df m proj
    let out := proj.setCol "churn_pred" scored.1
    let out := match scored.2 with
      | some p => out.setCol "churn_proba" p
      | none => out
    .scored out
  else
    .schemaError missing

/-- The gender selectbox of the form offers exactly Female and Male. -/
inductive GenderChoice where
  | Female
  | Male
deriving DecidableEq

/-- The subscription-type radio of the form offers exactly these options. -/
inductive SubChoice where
  | Basic
  | Premium
  | Standard
deriving DecidableEq

/-- The contract-length radio of the form offers exactly these options. -/
inductive ClChoice where
  | Annual
  | Monthly
  | Quarterly
deriving DecidableEq

/-- One submission of the single-prediction form (`app.py` lines 48-87):
the values the widgets hand back. The numeric widgets enforce their
minima/maxima in the browser; the closed option sets of the selectbox and
the radios are enforced by the choice types. -/
structure FormInput where
  age : Nat
  gender_choice : GenderChoice
  tenure : Nat
  usage_frequency : Nat
  support_calls : Nat
  payment_delay : Nat
  total_spend : ℚ
  last_interaction : Nat
  sub_choice : SubChoice
  cl_choice : ClChoice

/-- The dict `v` built by `make_form` (`app.py` lines 52-85), in Python
insertion order: the eight numeric fields, then the three subscription-type
one-hot flags from the radio, then the three contract-length one-hot flags. -/
def formDict (i : FormInput) : Row :=
  [("age", (i.age : ℚ)),
   ("gender", if i.gender_choice = .Male then 1 else 0),
   ("tenure", (i.tenure : ℚ)),
   ("usage_frequency", (i.usage_frequency : ℚ)),
   ("support_calls", (i.support_calls : ℚ)),
   ("payment_delay", (i.payment_delay : ℚ)),
   ("total_spend", i.total_spend),
   ("last_interaction", (i.last_interaction : ℚ)),
   ("subscription_type_Basic", if i.sub_choice = .Basic then 1 else 0),
   ("subscription_type_Premium", if i.sub_choice = .Premium then 1 else 0),
   ("subscription_type_Standard", if i.sub_choice = .Standard then 1 else 0),
   ("contract_length_Annual", if i.cl_choice = .Annual then 1 else 0),
   ("contract_length_Monthly", if i.cl_choice = .Monthly then 1 else 0),
   ("contract_length_Quarterly", if i.cl_choice = .Quarterly then 1 else 0)]

/-- `app.py` lines 89-91: on submit, `pd.DataFrame([v], columns=FEATURE_ORDER)`
— one row with the dict's fields arranged in `FEATURE_ORDER`; otherwise an
empty frame with those columns. -/
def make_form (clicked : Bool) (i : FormInput) : DataFrame :=
  if clicked then
    ⟨FEATURE_ORDER, [projectRowOn FEATURE_ORDER (formDict i)]⟩
  else
    ⟨FEATURE_ORDER, []⟩

/-- `app.py` lines 107-113: the single-prediction tab. When the form frame is
non-empty it is scored and the tab displays `int(y_pred[0])` and, when
probabilities exist, `y_proba[0]`. -/
def singleTab (m : Model) (clicked : Bool) (i : FormInput) : Option (Option Val × Option Val) :=
  let df := make_form clicked i
  if df.rows.isEmpty then
    none
  else
    let scored := score_df m df
    some (scored.1.head?, scored.2.bind List.head?)

/-- The environment-supplied result of `joblib.load("best_churn_model.joblib")`:
either the deserialized model or the exception message `e` it raises. It is
fixed for a process run. -/
abbrev Artifact := Except String Model

/-- Cache backing `@st.cache_resource` on `load_model`: the memoized return
value, if any, plus a count of actual deserializations performed. -/
structure CacheState where
  cached : Option (Except String Model)
  loadCount : Nat

/-- Cache state at process start: nothing memoized, nothing deserialized. -/
def initialCache : CacheState := ⟨none, 0⟩

/-- `app.py` lines 41-46: `load_model` returns the cached result when present;
otherwise it deserializes the artifact once, turning an exception into the
error value `("Couldn't load model: " ++ e)` instead of crashing, and caches
whichever result it got. The Python pair `(model, None)` / `(None, msg)` is
rendered as `Except String Model`. -/
def load_model (a : Artifact) (s : CacheState) : CacheState × Except String Model :=
  match s.cached with
  | some res => (s, res)
  | none =>
    let res : Except String Model :=
      match a with
      | .ok m => .ok m
      | .error e => .error ("Couldn't load model: " ++ e)
    (⟨some res, s.loadCount + 1⟩, res)

/-- The cache after `n` calls of `load_model` in one process run. -/
def runLoads (a : Artifact) : Nat → CacheState
  | 0 => initialCache
  | n + 1 => (load_model a (runLoads a n)).1

/-- What `main` does right after loading (`app.py` lines 100-103): on an error
it displays the message and `st.stop()`s the script, so neither tab runs;
otherwise the two tabs run against the loaded model. -/
inductive Session where
  | stopped (msg : String)
  | tabs (m : Model)
deriving Inhabited

/-- `app.py` lines 98-105: run `load_model` and gate the session on its error
component. -/
def mainSession (a : Artifact) (s : CacheState) : CacheState × Session :=
  let r := load_model a s
  match r.2 with
  | .error e => (r.1, .stopped e)
  | .ok m => (r.1, .tabs m)

/-- Batch scoring as reachable from a session: no frame is ever scored in a
stopped session. -/
def sessionBatch (s : Session) (df : DataFrame) : Option BatchResult :=
  match s with
  | .stopped _ => none
  | .tabs m => some (batchScore m df)

/-- Single-record scoring as reachable from a session (`app.py` lines
107-113): `none` when the session is stopped or the form was not submitted,
otherwise the displayed label `y_pred[0]` and probability `y_proba[0]`. -/
def sessionSingle (s : Session) (clicked : Bool) (i : FormInput) : Option (Option Val × Option Val) :=
  match s with
  | .stopped _ => none
  | .tabs m => singleTab m clicked i

/-- `df.head(n)`: the frame holding the first `n` rows. -/
def DataFrame.head (df : DataFrame) (n : Nat) : DataFrame :=
  ⟨df.cols, df.rows.take n⟩

/-- Decimal rendering of a cell value for CSV output. -/
def valToString (v : Val) : String := toString v

/-- The lines of `df.to_csv(index=False)`: a header line holding exactly the
column names, then one line per row with the row's cells in column order —
no row-index column. -/
def DataFrame.csvLines (df : DataFrame) : List String :=
  String.intercalate "," df.cols ::
    df.rows.map (fun r =>
      String.intercalate "," (df.cols.map (fun c =>
        match Row.get r c with
        | some v => valToString v
        | none => "")))

/-- `df.to_csv(index=False)` (`app.py` line 131): the CSV text blob handed to
the download button. -/
def DataFrame.to_csv (df : DataFrame) : String :=
  String.intercalate "\n" df.csvLines ++ "\n"

/-- What the batch tab renders for an upload (`app.py` lines 119-131): the
missing-column list shown by `st.error`, or the 20-row preview handed to
`st.dataframe` together with the full CSV handed to the download button. -/
structure BatchView where
  errorMissing : Option (List String)
  preview : Option DataFrame
  download : Option String
deriving DecidableEq

/-- `app.py` lines 119-131: render the batch tab for an uploaded frame. -/
def batchTab (m : Model) (df : DataFrame) : BatchView :=
  match batchScore m df with
  | .schemaError missing => ⟨some missing, none, none⟩
  | .scored out => ⟨none, some (out.head 20), some out.to_csv⟩

/-- A heap of pandas dataframe objects, for stating what the batch tab
mutates: references are indices into the heap. -/
abbrev Store := List DataFrame

/-- Dereference a frame in the heap. -/
def Store.read (s : Store) (r : Nat) : Option DataFrame := s.get? r

/-- In-place update of the object behind reference `r`. -/
def Store.write (s : Store) (r : Nat) (f : DataFrame → DataFrame) : Store :=
  match Store.read s r with
  | some df => s.set r (f df)
  | none => s

/-- The batch pipeline with pandas object semantics (`app.py` lines 120-131):
`df[FEATURE_ORDER]` allocates a fresh frame and the local name `df` is
rebound to it; both `df['churn_pred'] = ...` and `df['churn_proba'] = ...`
then mutate that fresh frame in place; `head` and `to_csv` only read.
Returns the final heap and the reference the results live behind. -/
def batchPipelineStore (m : Model) (s0 : Store) (uploaded : Nat) : Store × Option Nat :=
  match s0.read uploaded with
  | none => (s0, none)
  | some df =>
    if (missingColumns df).isEmpty then
      let pr := s0.length
      let s1 := s0 ++ [df.project]
      let scored := score_df m df.project
      let s2 := s1.write pr (fun d => d.setCol "churn_pred" scored.1)
      let s3 := match scored.2 with
        | some p => s2.write pr (fun d => d.setCol "churn_proba" p)
        | none => s2
      (s3, some pr)
    else
      (s0, none)

/-- The uploaded table with only the expected columns kept, the comparison
object of the extra-columns property: columns outside `FEATURE_ORDER` are
dropped, everything else is left in place. -/
def DataFrame.restrictExpected (df : DataFrame) : DataFrame :=
  ⟨df.cols.filter (fun c => FEATURE_ORDER.contains c),
   df.rows.map (fun r => r.filter (fun p => FEATURE_ORDER.contains p.1))⟩

/-- Vectorized-model contract: predictions (and probability matrices) have
one entry per input row. Holds for every sklearn classifier; pandas would
raise on the column assignments otherwise. -/
def Model.Vectorized (m : Model) : Prop :=
  (∀ X, (m.predict X).length = X.length) ∧
  (∀ f, m.predict_proba = some f → ∀ X, (f X).length = X.length)

/-- A binary classifier thresholding its positive-class probability at 1/2:
labels are 0/1, probabilities (column 1) lie in `[0,1]`, and the label is 1
exactly when the probability reaches 1/2. -/
def Model.IsThresholdClassifier (m : Model) : Prop :=
  (∀ X, (m.predict X).length = X.length) ∧
  (∀ X y, y ∈ m.predict X → y = 0 ∨ y = 1) ∧
  (∀ f, m.predict_proba = some f → ∀ X,
    (f X).length = X.length ∧
    (∀ pr ∈ f X, 0 ≤ probCol1 pr ∧ probCol1 pr ≤ 1) ∧
    (∀ j, j < X.length →
      ((1 : ℚ)/2 ≤ probCol1 ((f X).getD j [] ) ↔ (m.predict X).getD j 0 = 1)))

section RowLemmas

theorem contains_true_iff (L : List String) (c : String) :
    L.contains c = true ↔ c ∈ L := by
  simp [List.contains, List.elem_iff]

theorem contains_false_iff (L : List String) (c : String) :
    L.contains c = false ↔ c ∉ L := by
  cases h : L.contains c <;> simp_all [contains_true_iff]

theorem beq_false_of_ne {a b : String} (h : a ≠ b) : (a == b) = false := by
  cases hab : a == b
  · rfl
  · exact absurd (by simpa using hab) h

theorem Row_get_nil (c : String) : Row.get [] c = none := rfl

theorem Row_get_cons (k : String) (v : Val) (r : Row) (c : String) :
    Row.get ((k, v) :: r) c = if k == c then some v else Row.get r c := by
  by_cases h : k == c <;> simp [Row.get, List.find?_cons, h]

theorem Row_get_append (r s : Row) (c : String) :
    Row.get (r ++ s) c = (Row.get r c).or (Row.get s c) := by
  unfold Row.get
  rw [List.find?_append]
  cases List.find? (fun p => p.1 == c) r <;> simp

/-- Projection only produces keys from the key list. -/
theorem Row_get_projectRowOn_notMem {L : List String} {c : String} (r : Row)
    (hc : c ∉ L) : Row.get (projectRowOn L r) c = none := by
  induction L with
  | nil => rfl
  | cons k L ih =>
    simp only [List.mem_cons, not_or] at hc
    unfold projectRowOn
    simp only [List.filterMap_cons]
    cases hv : Row.get r k with
    | none => simpa [projectRowOn] using ih hc.2
    | some v =>
      simp only [Option.map_some']
      rw [Row_get_cons, beq_false_of_ne (fun hh => hc.1 hh.symm)]
      simpa [projectRowOn] using ih hc.2

/-- On a duplicate-free key list, projection preserves the value at every
listed key. -/
theorem Row_get_projectRowOn {L : List String} {c : String} (r : Row)
    (hnd : L.Nodup) (hc : c ∈ L) :
    Row.get (projectRowOn L r) c = Row.get r c := by
  induction L with
  | nil => cases hc
  | cons k L ih =>
    rw [List.nodup_cons] at hnd
    unfold projectRowOn
    simp only [List.filterMap_cons]
    rcases List.mem_cons.mp hc with hck | hcL
    · subst hck
      cases hv : Row.get r c with
      | none =>
        have := Row_get_projectRowOn_notMem (L := L) (c := c) r hnd.1
        simpa [projectRowOn, hv] using this
      | some v =>
        simp [Row_get_cons]
    · have hkc : (k == c) = false :=
        beq_false_of_ne (fun hh => hnd.1 (by rw [hh]; exact hcL))
      cases hv : Row.get r k with
      | none => simpa [projectRowOn] using ih hnd.2 hcL
      | some v =>
        simp only [Option.map_some']
        rw [Row_get_cons, hkc]
        simpa [projectRowOn] using ih hnd.2 hcL

/-- Dropping entries whose keys are outside `L` does not change lookups of
keys inside `L`. -/
theorem Row_get_filter_mem {L : List String} {c : String} (r : Row)
    (hc : c ∈ L) :
    Row.get (r.filter (fun p => L.contains p.1)) c = Row.get r c := by
  induction r with
  | nil => rfl
  | cons p r ih =>
    obtain ⟨k, v⟩ := p
    rw [List.filter_cons]
    by_cases hk : k ∈ L
    · rw [if_pos (by simpa using (contains_true_iff L k).mpr hk)]
      rw [Row_get_cons, Row_get_cons]
      by_cases hkc : (k == c) = true
      · rw [if_pos hkc, if_pos hkc]
      · rw [if_neg hkc, if_neg hkc, ih]
    · rw [if_neg (by simpa using (contains_false_iff L k).mpr hk)]
      have hkc : (k == c) = false :=
        beq_false_of_ne (fun hh => hk (by rw [hh]; exact hc))
      rw [ih, Row_get_cons, hkc]
      simp

/-- Setting an absent column appends the entry. -/
theorem Row_set_absent (r : Row) (c : String) (v : Val)
    (h : Row.get r c = none) : Row.set r c v = r ++ [(c, v)] := by
  simp [Row.set, h]

theorem Row_get_overwrite_ne (r : Row) (k c : String) (v : Val) (h : c ≠ k) :
    Row.get (r.map (fun p => if p.1 == k then (k, v) else p)) c = Row.get r c := by
  induction r with
  | nil => rfl
  | cons p r ih =>
    obtain ⟨k1, v1⟩ := p
    simp only [List.map_cons]
    by_cases hk1 : (k1 == k) = true
    · have hk1' : k1 = k := by simpa using hk1
      have hkc : (k == c) = false := beq_false_of_ne (fun hh => h hh.symm)
      have hk1c : (k1 == c) = false := by rw [hk1']; exact hkc
      rw [if_pos hk1, Row_get_cons, Row_get_cons, hkc, hk1c]
      simp only [Bool.false_eq_true, if_false]
      exact ih
    · rw [if_neg hk1, Row_get_cons, Row_get_cons]
      by_cases hk1c : (k1 == c) = true
      · rw [if_pos hk1c, if_pos hk1c]
      · rw [if_neg hk1c, if_neg hk1c, ih]

/-- Lookups at other columns are unchanged by `Row.set`. -/
theorem Row_get_set_ne (r : Row) (k c : String) (v : Val) (h : c ≠ k) :
    Row.get (Row.set r k v) c = Row.get r c := by
  unfold Row.set
  by_cases hs : (Row.get r k).isSome
  · rw [if_pos hs]
    exact Row_get_overwrite_ne r k c v h
  · rw [if_neg hs]
    rw [Row_get_append]
    have hnone : Row.get [(k, v)] c = none := by
      rw [Row_get_cons, beq_false_of_ne (fun hh => h hh.symm)]
      simp [Row_get_nil]
    rw [hnone]
    cases Row.get r c <;> rfl

end RowLemmas

section Fixtures

/-- A concrete probability-matrix function: every row gets `[0, 1]`. -/
def constProba : List (List Val) → List (List Val) :=
  fun X => X.map (fun _ => [0, 1])

/-- A concrete probability-capable classifier predicting label 1 with
probability 1 on every row. -/
def constModel : Model :=
  ⟨fun X => X.map (fun _ => 1), some constProba⟩

/-- A concrete classifier with no `predict_proba` attribute. -/
def noProbaModel : Model :=
  ⟨fun X => X.map (fun _ => 0), none⟩

/-- An uploaded frame missing 11 of the 14 expected columns. -/
def dfMissing : DataFrame :=
  ⟨["age", "gender", "tenure"], [[("age", 30), ("gender", 1), ("tenure", 5)]]⟩

/-- A complete feature row with every cell equal to 1. -/
def sampleRowFull : Row := FEATURE_ORDER.map (fun c => (c, (1 : ℚ)))

/-- A schema-complete uploaded frame with an extra `customer_name` column. -/
def dfExtra : DataFrame :=
  ⟨FEATURE_ORDER ++ ["customer_name"], [sampleRowFull ++ [("customer_name", 42)]]⟩

/-- A schema-complete uploaded frame with exactly the expected columns. -/
def dfOne : DataFrame := ⟨FEATURE_ORDER, [sampleRowFull]⟩

/-- The documented defaults of the single-prediction form. -/
def defaultInput : FormInput :=
  ⟨20, .Female, 25, 14, 4, 27, 598, 9, .Basic, .Monthly⟩

theorem FEATURE_ORDER_nodup : FEATURE_ORDER.Nodup := by decide

theorem churn_pred_not_feature : "churn_pred" ∉ FEATURE_ORDER := by decide

theorem churn_proba_not_feature : "churn_proba" ∉ FEATURE_ORDER := by decide

end Fixtures

/-- C1: a table lacking expected columns is rejected with the full list of
missing expected columns — every missing one, not just the first — and no
scoring happens; the scored branch runs exactly when no column is missing. -/
theorem batch_validation_complete (m : Model) (df : DataFrame) :
    (∀ c, c ∈ missingColumns df ↔ c ∈ FEATURE_ORDER ∧ c ∉ df.cols) ∧
    (missingColumns df ≠ [] → batchScore m df = .schemaError (missingColumns df)) ∧
    ((∃ out, batchScore m df = .scored out) ↔ missingColumns df = []) := by
  refine ⟨?_, ?_, ?_⟩
  · intro c
    simp [missingColumns, List.mem_filter]
  · intro h
    have : (missingColumns df).isEmpty = false := by
      cases hm : missingColumns df
      · exact absurd hm h
      · rfl
    simp [batchScore, this]
  · constructor
    · rintro ⟨out, hout⟩
      by_cases hm : (missingColumns df).isEmpty
      · cases hmm : missingColumns df
        · rfl
        · rw [hmm] at hm; cases hm
      · simp [batchScore, hm] at hout
    · intro h
      simp only [batchScore, h, List.isEmpty_nil, if_true]
      exact ⟨_, rfl⟩

/-- C1 witness: a concrete frame lacking 11 expected columns is rejected with
all 11 of them listed, and is not scored. -/
theorem batch_validation_complete_witness :
    missingColumns dfMissing =
      ["usage_frequency", "support_calls", "payment_delay", "total_spend",
       "last_interaction", "subscription_type_Basic", "subscription_type_Premium",
       "subscription_type_Standard", "contract_length_Annual",
       "contract_length_Monthly", "contract_length_Quarterly"] ∧
    batchScore constModel dfMissing = .schemaError (missingColumns dfMissing) :=
  ⟨by decide,
   (batch_validation_complete constModel dfMissing).2.1 (by decide)⟩

/-- C2: on a schema-complete upload, extra columns are ignored — the frame is
projected to exactly the expected columns in canonical order, and scoring the
frame gives literally the same outcome as scoring the frame restricted to the
expected columns. -/
theorem extra_columns_ignored (m : Model) (df : DataFrame)
    (h : missingColumns df = []) :
    df.restrictExpected.project = df.project ∧
    df.project.cols = FEATURE_ORDER ∧
    batchScore m df = batchScore m df.restrictExpected := by
  have hproj : df.restrictExpected.project = df.project := by
    unfold DataFrame.project DataFrame.restrictExpected
    simp only [List.map_map]
    refine congrArg _ (List.map_congr_left ?_)
    intro r _
    show projectRowOn FEATURE_ORDER (r.filter (fun p => FEATURE_ORDER.contains p.1)) =
      projectRowOn FEATURE_ORDER r
    unfold projectRowOn
    refine List.filterMap_congr ?_
    intro c hc
    rw [Row_get_filter_mem r hc]
  have hcols : ∀ c ∈ FEATURE_ORDER, c ∈ df.cols := by
    intro c hc
    by_contra hnc
    have : c ∈ missingColumns df := by
      simp [missingColumns, List.mem_filter, hc, hnc]
    rw [h] at this
    cases this
  have hmiss : missingColumns df.restrictExpected = [] := by
    rw [missingColumns, List.filter_eq_nil_iff]
    intro c hc
    simp only [DataFrame.restrictExpected, Bool.not_eq_true', contains_false_iff]
    intro hno
    exact hno (List.mem_filter.mpr ⟨hcols c hc, (contains_true_iff _ _).mpr hc⟩)
  refine ⟨hproj, rfl, ?_⟩
  simp only [batchScore, h, hmiss, hproj, List.isEmpty_nil]

/-- C2 witness: the concrete frame with an extra `customer_name` column is
schema-complete and scores identically to its restriction to the expected
columns. -/
theorem extra_columns_ignored_witness :
    missingColumns dfExtra = [] ∧
    batchScore constModel dfExtra = batchScore constModel dfExtra.restrictExpected :=
  ⟨by decide, (extra_columns_ignored constModel dfExtra (by decide)).2.2⟩

section FrameLemmas

theorem rows_getD_out (l : List Row) (i : Nat) (hi : ¬ i < l.length) :
    l.getD i [] = [] := by
  rw [List.getD_eq_getElem?_getD, List.getElem?_eq_none (Nat.le_of_not_lt hi)]
  rfl

theorem setCol_row_getD (df : DataFrame) (cnew : String) (vals : List Val)
    (i : Nat) (hi : i < df.rows.length) (hiv : i < vals.length) :
    (df.setCol cnew vals).rows.getD i [] =
      Row.set (df.rows.getD i []) cnew (vals.getD i 0) := by
  unfold DataFrame.setCol
  rw [List.getD_eq_getElem?_getD, List.getElem?_zipWith,
      List.getElem?_eq_getElem hi, List.getElem?_eq_getElem hiv]
  rw [List.getD_eq_getElem?_getD, List.getD_eq_getElem?_getD,
      List.getElem?_eq_getElem hi, List.getElem?_eq_getElem hiv]
  rfl

theorem setCol_rows_length (df : DataFrame) (c : String) (vals : List Val)
    (hlen : vals.length = df.rows.length) :
    (df.setCol c vals).rows.length = df.rows.length := by
  simp [DataFrame.setCol, List.length_zipWith, hlen]

theorem setCol_cols_new (df : DataFrame) (c : String) (vals : List Val)
    (h : df.cols.contains c = false) :
    (df.setCol c vals).cols = df.cols ++ [c] := by
  simp only [DataFrame.setCol, h]
  simp

theorem Row_get_set_absent (r : Row) (c : String) (v : Val)
    (h : Row.get r c = none) : Row.get (Row.set r c v) c = some v := by
  rw [Row_set_absent r c v h, Row_get_append, h, Row_get_cons]
  simp

theorem project_rows_length (T : DataFrame) :
    T.project.rows.length = T.rows.length := by
  simp [DataFrame.project]

theorem project_row_getD (T : DataFrame) (i : Nat) (hi : i < T.rows.length) :
    T.project.rows.getD i [] = projectRowOn FEATURE_ORDER (T.rows.getD i []) := by
  simp [DataFrame.project, List.getD_eq_getElem?_getD, List.getElem?_map,
        List.getElem?_eq_getElem hi]

theorem matrix_length (df : DataFrame) : df.matrix.length = df.rows.length := by
  simp [DataFrame.matrix]

end FrameLemmas

/-- C3: batch scoring of a schema-complete table preserves row count and row
order, leaves every expected-column value of every row unchanged, appends a
`churn_pred` column (and a `churn_proba` column exactly when the model has
probabilities), and row `i` of the output carries the model's `i`-th
prediction. -/
theorem batch_preserves_rows (m : Model) (T : DataFrame)
    (hm : m.Vectorized) (h : missingColumns T = []) :
    ∃ out, batchScore m T = .scored out ∧
      out.rows.length = T.rows.length ∧
      (∀ i c, c ∈ FEATURE_ORDER →
        Row.get (out.rows.getD i []) c = Row.get (T.rows.getD i []) c) ∧
      (match m.predict_proba with
        | some _ => out.cols = FEATURE_ORDER ++ ["churn_pred", "churn_proba"]
        | none => out.cols = FEATURE_ORDER ++ ["churn_pred"]) ∧
      (∀ i, i < T.rows.length →
        Row.get (out.rows.getD i []) "churn_pred" =
          some ((m.predict T.project.matrix).getD i 0)) := by
  have hlenproj : T.project.rows.length = T.rows.length := project_rows_length T
  have hmat : T.project.matrix.length = T.rows.length := by
    rw [matrix_length]; exact hlenproj
  have hpredlen : (m.predict T.project.matrix).length = T.rows.length := by
    rw [hm.1]; exact hmat
  have hcpcontains : FEATURE_ORDER.contains "churn_pred" = false := by decide
  have hgetrow : ∀ i, i < T.rows.length →
      (T.project.setCol "churn_pred" (m.predict T.project.matrix)).rows.getD i [] =
        Row.set (projectRowOn FEATURE_ORDER (T.rows.getD i []))
          "churn_pred" ((m.predict T.project.matrix).getD i 0) := by
    intro i hi
    rw [setCol_row_getD _ _ _ i (by rw [hlenproj]; exact hi) (by rw [hpredlen]; exact hi),
        project_row_getD T i hi]
  have hlen1 : (T.project.setCol "churn_pred" (m.predict T.project.matrix)).rows.length
      = T.rows.length := by
    rw [setCol_rows_length _ _ _ (by rw [hpredlen, hlenproj]), hlenproj]
  have hunch1 : ∀ i c, c ∈ FEATURE_ORDER →
      Row.get ((T.project.setCol "churn_pred" (m.predict T.project.matrix)).rows.getD i []) c
        = Row.get (T.rows.getD i []) c := by
    intro i c hc
    by_cases hi : i < T.rows.length
    · rw [hgetrow i hi,
          Row_get_set_ne _ _ _ _
            (fun hcc => churn_pred_not_feature (by rw [← hcc]; exact hc)),
          Row_get_projectRowOn _ FEATURE_ORDER_nodup hc]
    · rw [rows_getD_out _ _ (by rw [hlen1]; exact hi), rows_getD_out _ _ hi]
  have hcp1 : ∀ i, i < T.rows.length →
      Row.get ((T.project.setCol "churn_pred" (m.predict T.project.matrix)).rows.getD i [])
          "churn_pred" = some ((m.predict T.project.matrix).getD i 0) := by
    intro i hi
    rw [hgetrow i hi]
    exact Row_get_set_absent _ _ _
      (Row_get_projectRowOn_notMem _ churn_pred_not_feature)
  cases hpp : m.predict_proba with
  | none =>
    refine ⟨T.project.setCol "churn_pred" (m.predict T.project.matrix),
      ?_, hlen1, hunch1, ?_, hcp1⟩
    · simp [batchScore, h, score_df, hpp]
    · exact setCol_cols_new _ _ _ hcpcontains
  | some f =>
    have hproblen : ((f T.project.matrix).map probCol1).length = T.rows.length := by
      rw [List.length_map, hm.2 f hpp]; exact hmat
    have hcprcontains :
        (FEATURE_ORDER ++ ["churn_pred"]).contains "churn_proba" = false := by decide
    have hcols1 : (T.project.setCol "churn_pred" (m.predict T.project.matrix)).cols
        = FEATURE_ORDER ++ ["churn_pred"] := setCol_cols_new _ _ _ hcpcontains
    have hgetrow2 : ∀ i, i < T.rows.length →
        ((T.project.setCol "churn_pred" (m.predict T.project.matrix)).setCol
            "churn_proba" ((f T.project.matrix).map probCol1)).rows.getD i [] =
          Row.set ((T.project.setCol "churn_pred"
              (m.predict T.project.matrix)).rows.getD i [])
            "churn_proba" (((f T.project.matrix).map probCol1).getD i 0) := by
      intro i hi
      rw [setCol_row_getD _ _ _ i (by rw [hlen1]; exact hi)
            (by rw [hproblen]; exact hi)]
    refine ⟨(T.project.setCol "churn_pred" (m.predict T.project.matrix)).setCol
        "churn_proba" ((f T.project.matrix).map probCol1), ?_, ?_, ?_, ?_, ?_⟩
    · simp [batchScore, h, score_df, hpp]
    · rw [setCol_rows_length _ _ _ (by rw [hproblen, hlen1])]
      exact hlen1
    · intro i c hc
      by_cases hi : i < T.rows.length
      · rw [hgetrow2 i hi,
            Row_get_set_ne _ _ _ _
              (fun hcc => churn_proba_not_feature (by rw [← hcc]; exact hc))]
        exact hunch1 i c hc
      · rw [rows_getD_out _ _ hi, rows_getD_out _ _
          (by rw [setCol_rows_length _ _ _ (by rw [hproblen, hlen1]), hlen1]; exact hi)]
    · rw [setCol_cols_new _ _ _ (by rw [hcols1]; exact hcprcontains), hcols1]
      simp
    · intro i hi
      rw [hgetrow2 i hi,
          Row_get_set_ne _ _ _ _ (by decide), hcp1 i hi]

theorem constModel_vectorized : constModel.Vectorized := by
  constructor
  · intro X; simp [constModel]
  · intro f hf X
    have hf' : f = constProba := by
      have : (some constProba : Option (List (List Val) → List (List Val)))
          = some f := hf
      exact (Option.some_inj.mp this).symm
    rw [hf']
    simp [constProba]

/-- C3 witness: scoring the concrete schema-complete one-row frame with the
concrete probability-capable model satisfies every clause of the batch
row-preservation theorem. -/
theorem batch_preserves_rows_witness :
    missingColumns dfOne = [] ∧
    (∃ out, batchScore constModel dfOne = .scored out ∧
      out.rows.length = dfOne.rows.length ∧
      (∀ i c, c ∈ FEATURE_ORDER →
        Row.get (out.rows.getD i []) c = Row.get (dfOne.rows.getD i []) c) ∧
      (match constModel.predict_proba with
        | some _ => out.cols = FEATURE_ORDER ++ ["churn_pred", "churn_proba"]
        | none => out.cols = FEATURE_ORDER ++ ["churn_pred"]) ∧
      (∀ i, i < dfOne.rows.length →
        Row.get (out.rows.getD i []) "churn_pred" =
          some ((constModel.predict dfOne.project.matrix).getD i 0))) :=
  ⟨by decide,
   batch_preserves_rows constModel dfOne constModel_vectorized (by decide)⟩

section CacheLemmas

theorem load_model_cached (a : Artifact) (s : CacheState)
    (res : Except String Model) (h : s.cached = some res) :
    load_model a s = (s, res) := by
  simp [load_model, h]

theorem load_model_initial_cached (a : Artifact) :
    (load_model a initialCache).1.cached = some (load_model a initialCache).2 := by
  simp [load_model, initialCache]

theorem runLoads_stable (a : Artifact) (n : Nat) :
    runLoads a (n + 1) = (load_model a initialCache).1 := by
  induction n with
  | zero => rfl
  | succ k ih =>
    show (load_model a (runLoads a (k + 1))).1 = _
    rw [ih, load_model_cached a _ _ (load_model_initial_cached a)]

end CacheLemmas

/-- C4: `load_model` is memoized: a second call returns the same handle and
does not touch the cache again, the artifact is deserialized at most once
per process run, and a failed load stays failed — every later call in the
run keeps returning the original error, never a loaded model. -/
theorem load_memoized (a : Artifact) :
    (∀ s, load_model a (load_model a s).1 = load_model a s) ∧
    (∀ n, (runLoads a n).loadCount ≤ 1) ∧
    (∀ msg n, (load_model a initialCache).2 = .error msg →
      (load_model a (runLoads a n)).2 = .error msg) := by
  refine ⟨?_, ?_, ?_⟩
  · intro s
    cases hs : s.cached with
    | some res => rw [load_model_cached a s res hs, load_model_cached a s res hs]
    | none =>
      have h1 : (load_model a s).1.cached = some (load_model a s).2 := by
        simp [load_model, hs]
      rw [load_model_cached a _ _ h1]
  · intro n
    cases n with
    | zero => exact Nat.zero_le 1
    | succ k =>
      rw [runLoads_stable]
      simp [load_model, initialCache]
  · intro msg n herr
    cases n with
    | zero => exact herr
    | succ k =>
      rw [runLoads_stable,
          load_model_cached a _ _ (load_model_initial_cached a)]
      exact herr

/-- C4 witness: with an artifact whose deserialization raises `boom`, the
first load fails with the human-readable message and the fourth call still
returns that same error. -/
theorem load_memoized_witness :
    (load_model (.error "boom") initialCache).2 =
      .error ("Couldn't load model: " ++ "boom") ∧
    (load_model (.error "boom") (runLoads (.error "boom") 3)).2 =
      .error ("Couldn't load model: " ++ "boom") :=
  ⟨rfl, (load_memoized (.error "boom")).2.2 ("Couldn't load model: " ++ "boom") 3 rfl⟩

/-- C5: when deserializing the artifact raises, `load_model` returns an error
value (no crash) carrying a message built from the exception text, `main`
surfaces exactly that message and stops, and neither batch nor single-record
scoring can happen anywhere in the session, however often the script reruns. -/
theorem failed_load_blocks_scoring (e : String) (n : Nat) (df : DataFrame)
    (clicked : Bool) (i : FormInput) :
    (mainSession (.error e) (runLoads (.error e) n)).2 =
      .stopped ("Couldn't load model: " ++ e) ∧
    sessionBatch (mainSession (.error e) (runLoads (.error e) n)).2 df = none ∧
    sessionSingle (mainSession (.error e) (runLoads (.error e) n)).2 clicked i = none := by
  have hres : (load_model (.error e) (runLoads (.error e) n)).2 =
      .error ("Couldn't load model: " ++ e) := by
    cases n with
    | zero => simp [runLoads, load_model, initialCache]
    | succ k =>
      rw [runLoads_stable,
          load_model_cached _ _ _ (load_model_initial_cached (.error e))]
      simp [load_model, initialCache]
  have hmain : (mainSession (.error e) (runLoads (.error e) n)).2 =
      .stopped ("Couldn't load model: " ++ e) := by
    simp [mainSession, hres]
  exact ⟨hmain, by rw [hmain]; rfl, by rw [hmain]; rfl⟩

/-- C6: the probability output of a scoring call is present exactly when the
model exposes `predict_proba`: absent (`none`) when it does not — not zero
and not an error — and the mapped second probability column when it does,
alongside the label vector in both cases. -/
theorem proba_iff_capability (m : Model) (df : DataFrame) :
    ((score_df m df).2 = none ↔ m.predict_proba = none) ∧
    (∀ f, m.predict_proba = some f →
      (score_df m df).2 = some ((f df.matrix).map probCol1)) ∧
    (score_df m df).1 = m.predict df.matrix := by
  refine ⟨?_, ?_, rfl⟩
  · cases hpp : m.predict_proba <;> simp [score_df, hpp]
  · intro f hf
    simp [score_df, hf]

/-- C6 witness: the concrete probability-capable model yields a probability
column on the concrete frame, as the capability theorem dictates. -/
theorem proba_iff_capability_witness :
    constModel.predict_proba = some constProba ∧
    (score_df constModel dfOne).2 = some ((constProba dfOne.matrix).map probCol1) :=
  ⟨rfl, (proba_iff_capability constModel dfOne).2.1 constProba rfl⟩

section ThresholdLemmas

theorem getD_map_const {α : Type} (X : List (List Val)) (c : α) (d : α)
    (j : Nat) (hj : j < X.length) :
    (X.map (fun _ => c)).getD j d = c := by
  rw [List.getD_eq_getElem?_getD, List.getElem?_map, List.getElem?_eq_getElem hj]
  rfl

theorem constModel_threshold : constModel.IsThresholdClassifier := by
  refine ⟨?_, ?_, ?_⟩
  · intro X; simp [constModel]
  · intro X y hy
    simp only [constModel, List.mem_map] at hy
    obtain ⟨-, -, hv⟩ := hy
    right; exact hv.symm
  · intro f hf X
    have hf' : f = constProba := by
      have h2 : (some constProba : Option (List (List Val) → List (List Val)))
          = some f := hf
      exact (Option.some_inj.mp h2).symm
    rw [hf']
    refine ⟨by simp [constProba], ?_, ?_⟩
    · intro pr hpr
      simp only [constProba, List.mem_map] at hpr
      obtain ⟨-, -, hv⟩ := hpr
      rw [← hv]
      norm_num [probCol1]
    · intro j hj
      rw [show constProba X = X.map (fun _ => [0, 1]) from rfl,
          getD_map_const X _ _ j hj,
          show constModel.predict X = X.map (fun _ => (1 : ℚ)) from rfl,
          getD_map_const X _ _ j hj]
      norm_num [probCol1]

end ThresholdLemmas

/-- C7: on any submitted single feature vector, under the assumption that the
model is a 1/2-threshold binary classifier, the displayed label is 0 or 1,
the displayed probability — when one is returned — lies in `[0,1]`, and it
reaches 1/2 exactly when the label is 1. -/
theorem single_score_threshold (m : Model) (i : FormInput)
    (hm : m.IsThresholdClassifier) :
    ∃ y pr, singleTab m true i = some (some y, pr) ∧
      (y = 0 ∨ y = 1) ∧
      (pr = none ↔ m.predict_proba = none) ∧
      (∀ p, pr = some p → 0 ≤ p ∧ p ≤ 1 ∧ ((1 : ℚ)/2 ≤ p ↔ y = 1)) := by
  obtain ⟨hlen, hmem, hpro⟩ := hm
  have hX : (make_form true i).matrix.length = 1 := by
    simp [make_form, DataFrame.matrix]
  have hpredlen : (m.predict (make_form true i).matrix).length = 1 := by
    rw [hlen, hX]
  have h0 : 0 < (m.predict (make_form true i).matrix).length := by
    rw [hpredlen]; norm_num
  have hhead : (m.predict (make_form true i).matrix).head? =
      some ((m.predict (make_form true i).matrix).getD 0 0) := by
    rw [List.head?_eq_getElem?, List.getElem?_eq_getElem h0,
        List.getD_eq_getElem?_getD, List.getElem?_eq_getElem h0]
    rfl
  have hy01 : (m.predict (make_form true i).matrix).getD 0 0 = 0 ∨
      (m.predict (make_form true i).matrix).getD 0 0 = 1 := by
    refine hmem (make_form true i).matrix _ ?_
    rw [List.getD_eq_getElem?_getD, List.getElem?_eq_getElem h0]
    exact List.getElem_mem h0
  have hne : ((make_form true i).rows.isEmpty) = false := by
    simp [make_form]
  cases hpp : m.predict_proba with
  | none =>
    refine ⟨(m.predict (make_form true i).matrix).getD 0 0, none, ?_, hy01,
      by simp [hpp], by intro p hp; cases hp⟩
    simp only [singleTab, hne, Bool.false_eq_true, if_false, score_df, hpp,
      Option.map_none', Option.none_bind]
    rw [hhead]
  | some f =>
    obtain ⟨hflen, hbounds, hcons⟩ := hpro f hpp (make_form true i).matrix
    have hf0 : 0 < (f (make_form true i).matrix).length := by
      rw [hflen, hX]; norm_num
    have hmaplen : ((f (make_form true i).matrix).map probCol1).length = 1 := by
      rw [List.length_map, hflen, hX]
    have hp0 : 0 < ((f (make_form true i).matrix).map probCol1).length := by
      rw [hmaplen]; norm_num
    have hphead : ((f (make_form true i).matrix).map probCol1).head? =
        some (probCol1 ((f (make_form true i).matrix).getD 0 [])) := by
      rw [List.head?_eq_getElem?, List.getElem?_map, List.getElem?_eq_getElem hf0,
          List.getD_eq_getElem?_getD, List.getElem?_eq_getElem hf0]
      rfl
    refine ⟨(m.predict (make_form true i).matrix).getD 0 0,
      some (probCol1 ((f (make_form true i).matrix).getD 0 [])), ?_, hy01,
      by simp [hpp], ?_⟩
    · simp only [singleTab, hne, Bool.false_eq_true, if_false, score_df, hpp,
        Option.map_some']
      rw [hhead]
      simp only [Option.some_bind]
      rw [hphead]
    · intro p hp
      have hpeq : p = probCol1 ((f (make_form true i).matrix).getD 0 []) :=
        Option.some_inj.mp hp.symm
      have hmem0 : (f (make_form true i).matrix).getD 0 [] ∈
          f (make_form true i).matrix := by
        rw [List.getD_eq_getElem?_getD, List.getElem?_eq_getElem hf0]
        exact List.getElem_mem hf0
      obtain ⟨hb1, hb2⟩ := hbounds _ hmem0
      refine ⟨by rw [hpeq]; exact hb1, by rw [hpeq]; exact hb2, ?_⟩
      rw [hpeq]
      exact hcons 0 (by rw [hX]; norm_num)

/-- C7 witness: the concrete 1/2-threshold model satisfies the classifier
assumption, and scoring the documented default form input satisfies every
clause of the single-score theorem. -/
theorem single_score_threshold_witness :
    constModel.IsThresholdClassifier ∧
    (∃ y pr, singleTab constModel true defaultInput = some (some y, pr) ∧
      (y = 0 ∨ y = 1) ∧
      (pr = none ↔ constModel.predict_proba = none) ∧
      (∀ p, pr = some p → 0 ≤ p ∧ p ≤ 1 ∧ ((1 : ℚ)/2 ≤ p ↔ y = 1))) :=
  ⟨constModel_threshold,
   single_score_threshold constModel defaultInput constModel_threshold⟩

section StoreLemmas

theorem store_read_lt {s : Store} {r : Nat} {df : DataFrame}
    (h : Store.read s r = some df) : r < s.length := by
  unfold Store.read at h
  rw [List.get?_eq_getElem?] at h
  exact (List.getElem?_eq_some.mp h).1

theorem write_read_ne (s : Store) (j q : Nat) (f : DataFrame → DataFrame)
    (h : j ≠ q) : (Store.write s j f).read q = s.read q := by
  unfold Store.write
  cases hj : Store.read s j
  · rfl
  · unfold Store.read
    rw [List.get?_eq_getElem?, List.get?_eq_getElem?, List.getElem?_set_ne h]

theorem read_append_lt (s t : Store) (q : Nat) (h : q < s.length) :
    Store.read (s ++ t) q = s.read q := by
  unfold Store.read
  rw [List.get?_eq_getElem?, List.get?_eq_getElem?, List.getElem?_append, if_pos h]

theorem read_append_self (s : Store) (df : DataFrame) :
    Store.read (s ++ [df]) s.length = some df := by
  unfold Store.read
  rw [List.get?_eq_getElem?]
  exact List.getElem?_concat_length s df

theorem write_read_self (s : Store) (j : Nat) (f : DataFrame → DataFrame)
    (df : DataFrame) (h : Store.read s j = some df) :
    (Store.write s j f).read j = some (f df) := by
  have hlt : j < s.length := store_read_lt h
  unfold Store.write
  rw [h]
  unfold Store.read
  rw [List.get?_eq_getElem?, List.getElem?_set]
  simp [hlt]

end StoreLemmas

/-- C8: the batch pipeline never mutates the uploaded frame object: after the
whole pipeline runs with pandas object semantics, the heap cell holding the
caller's frame — and every other pre-existing cell — still holds exactly
what it held before, because `df[FEATURE_ORDER]` allocates a fresh object
and both column assignments mutate only that fresh object; the results live
behind a new reference, carrying precisely the `batchScore` output. -/
theorem batch_no_mutation (m : Model) (s : Store) (r : Nat) :
    ((batchPipelineStore m s r).1).read r = s.read r ∧
    (∀ q, q < s.length → ((batchPipelineStore m s r).1).read q = s.read q) ∧
    (∀ df, s.read r = some df → (missingColumns df).isEmpty = true →
      ∃ pr out, (batchPipelineStore m s r).2 = some pr ∧
        ((batchPipelineStore m s r).1).read pr = some out ∧
        batchScore m df = .scored out) := by
  cases hread : Store.read s r with
  | none =>
    have hpipe : batchPipelineStore m s r = (s, none) := by
      simp only [batchPipelineStore, hread]
    rw [hpipe]
    exact ⟨hread, fun q hq => rfl, fun df hdf => by cases hdf⟩
  | some df =>
    have hrlt : r < s.length := store_read_lt hread
    cases hmiss : (missingColumns df).isEmpty with
    | false =>
      have hpipe : batchPipelineStore m s r = (s, none) := by
        simp only [batchPipelineStore, hread]
        rw [if_neg (by simp [hmiss])]
      rw [hpipe]
      refine ⟨hread, fun q hq => rfl, ?_⟩
      intro df2 hdf2 hm2
      cases hdf2
      rw [hmiss] at hm2
      cases hm2
    | true =>
      have hql : ∀ (q : Nat) (f1 f2 : DataFrame → DataFrame), q < s.length →
          Store.read (Store.write (Store.write (s ++ [df.project]) s.length f1)
            s.length f2) q = Store.read s q := by
        intro q f1 f2 hq
        have hqe : s.length ≠ q := fun hh => absurd hq (by rw [← hh]; exact Nat.lt_irrefl _)
        rw [write_read_ne _ _ _ _ hqe, write_read_ne _ _ _ _ hqe,
            read_append_lt _ _ _ hq]
      have hprread : ∀ (f1 f2 : DataFrame → DataFrame),
          Store.read (Store.write (Store.write (s ++ [df.project]) s.length f1)
            s.length f2) s.length = some (f2 (f1 df.project)) := by
        intro f1 f2
        have h1 : Store.read (s ++ [df.project]) s.length = some df.project :=
          read_append_self s df.project
        have h2 := write_read_self _ _ f1 _ h1
        exact write_read_self _ _ f2 _ h2
      have hql1 : ∀ (q : Nat) (f1 : DataFrame → DataFrame), q < s.length →
          Store.read (Store.write (s ++ [df.project]) s.length f1) q
            = Store.read s q := by
        intro q f1 hq
        have hqe : s.length ≠ q := fun hh => absurd hq (by rw [← hh]; exact Nat.lt_irrefl _)
        rw [write_read_ne _ _ _ _ hqe, read_append_lt _ _ _ hq]
      have hpr1 : ∀ (f1 : DataFrame → DataFrame),
          Store.read (Store.write (s ++ [df.project]) s.length f1) s.length
            = some (f1 df.project) := by
        intro f1
        exact write_read_self _ _ f1 _ (read_append_self s df.project)
      cases hsc : (score_df m df.project).2 with
      | none =>
        have hpipe : batchPipelineStore m s r =
            (Store.write (s ++ [df.project]) s.length
              (fun d => d.setCol "churn_pred" (score_df m df.project).1),
             some s.length) := by
          simp only [batchPipelineStore, hread]
          rw [if_pos hmiss]
          simp only [hsc]
        rw [hpipe]
        refine ⟨(hql1 r _ hrlt).trans hread, fun q hq => hql1 q _ hq, ?_⟩
        intro df2 hdf2 hm2
        cases hdf2
        exact ⟨s.length, df.project.setCol "churn_pred" (score_df m df.project).1,
          rfl, hpr1 _, by simp only [batchScore]; rw [if_pos hmiss]; simp only [hsc]⟩
      | some p =>
        have hpipe : batchPipelineStore m s r =
            (Store.write (Store.write (s ++ [df.project]) s.length
                (fun d => d.setCol "churn_pred" (score_df m df.project).1))
              s.length (fun d => d.setCol "churn_proba" p),
             some s.length) := by
          simp only [batchPipelineStore, hread]
          rw [if_pos hmiss]
          simp only [hsc]
        rw [hpipe]
        refine ⟨(hql r _ _ hrlt).trans hread, fun q hq => hql q _ _ hq, ?_⟩
        intro df2 hdf2 hm2
        cases hdf2
        exact ⟨s.length,
          (df.project.setCol "churn_pred" (score_df m df.project).1).setCol
            "churn_proba" p,
          rfl, hprread _ _, by simp only [batchScore]; rw [if_pos hmiss]; simp only [hsc]⟩

/-- C8 witness: running the pipeline on a one-frame heap holding the concrete
frame with extra columns leaves the uploaded cell untouched and produces the
`batchScore` output behind a fresh reference. -/
theorem batch_no_mutation_witness :
    ((batchPipelineStore constModel [dfExtra] 0).1).read 0 = some dfExtra ∧
    (∃ pr out, (batchPipelineStore constModel [dfExtra] 0).2 = some pr ∧
      ((batchPipelineStore constModel [dfExtra] 0).1).read pr = some out ∧
      batchScore constModel dfExtra = .scored out) :=
  ⟨((batch_no_mutation constModel [dfExtra] 0).1).trans (by decide),
   (batch_no_mutation constModel [dfExtra] 0).2.2 dfExtra (by decide) (by decide)⟩

/-- C9: every submitted single-record form yields one row whose fields are
exactly `FEATURE_ORDER` in order, each one-hot flag is 0 or 1, and each of
the two one-hot groups (subscription type, contract length) sums to exactly
1 — the radios make exactly one flag per group equal to 1. -/
theorem form_one_hot (i : FormInput) :
    (make_form true i).cols = FEATURE_ORDER ∧
    (make_form true i).rows = [formDict i] ∧
    (formDict i).map Prod.fst = FEATURE_ORDER ∧
    (∀ c ∈ ["subscription_type_Basic", "subscription_type_Premium",
        "subscription_type_Standard", "contract_length_Annual",
        "contract_length_Monthly", "contract_length_Quarterly"],
      Row.get (formDict i) c = some 0 ∨ Row.get (formDict i) c = some 1) ∧
    (Row.get (formDict i) "subscription_type_Basic").getD 0 +
      (Row.get (formDict i) "subscription_type_Premium").getD 0 +
      (Row.get (formDict i) "subscription_type_Standard").getD 0 = 1 ∧
    (Row.get (formDict i) "contract_length_Annual").getD 0 +
      (Row.get (formDict i) "contract_length_Monthly").getD 0 +
      (Row.get (formDict i) "contract_length_Quarterly").getD 0 = 1 := by
  have hsB : Row.get (formDict i) "subscription_type_Basic" =
      some (if i.sub_choice = .Basic then 1 else 0) := rfl
  have hsP : Row.get (formDict i) "subscription_type_Premium" =
      some (if i.sub_choice = .Premium then 1 else 0) := rfl
  have hsS : Row.get (formDict i) "subscription_type_Standard" =
      some (if i.sub_choice = .Standard then 1 else 0) := rfl
  have hcA : Row.get (formDict i) "contract_length_Annual" =
      some (if i.cl_choice = .Annual then 1 else 0) := rfl
  have hcM : Row.get (formDict i) "contract_length_Monthly" =
      some (if i.cl_choice = .Monthly then 1 else 0) := rfl
  have hcQ : Row.get (formDict i) "contract_length_Quarterly" =
      some (if i.cl_choice = .Quarterly then 1 else 0) := rfl
  refine ⟨rfl, rfl, rfl, ?_, ?_, ?_⟩
  · intro c hc
    simp only [List.mem_cons, List.not_mem_nil, or_false] at hc
    rcases hc with rfl | rfl | rfl | rfl | rfl | rfl
    · rw [hsB]; by_cases hh : i.sub_choice = .Basic <;> simp [hh]
    · rw [hsP]; by_cases hh : i.sub_choice = .Premium <;> simp [hh]
    · rw [hsS]; by_cases hh : i.sub_choice = .Standard <;> simp [hh]
    · rw [hcA]; by_cases hh : i.cl_choice = .Annual <;> simp [hh]
    · rw [hcM]; by_cases hh : i.cl_choice = .Monthly <;> simp [hh]
    · rw [hcQ]; by_cases hh : i.cl_choice = .Quarterly <;> simp [hh]
  · rw [hsB, hsP, hsS]
    cases hh : i.sub_choice <;> simp
  · rw [hcA, hcM, hcQ]
    cases hh : i.cl_choice <;> simp

/-- C9 witness: the documented default form input (Basic subscription,
Monthly contract) instantiates the one-hot theorem; its Basic flag is 0 or 1
and both groups sum to 1. -/
theorem form_one_hot_witness :
    (Row.get (formDict defaultInput) "subscription_type_Basic" = some 0 ∨
      Row.get (formDict defaultInput) "subscription_type_Basic" = some 1) ∧
    (Row.get (formDict defaultInput) "subscription_type_Basic").getD 0 +
      (Row.get (formDict defaultInput) "subscription_type_Premium").getD 0 +
      (Row.get (formDict defaultInput) "subscription_type_Standard").getD 0 = 1 ∧
    (Row.get (formDict defaultInput) "contract_length_Annual").getD 0 +
      (Row.get (formDict defaultInput) "contract_length_Monthly").getD 0 +
      (Row.get (formDict defaultInput) "contract_length_Quarterly").getD 0 = 1 :=
  ⟨(form_one_hot defaultInput).2.2.2.1 "subscription_type_Basic" (by decide),
   (form_one_hot defaultInput).2.2.2.2.1,
   (form_one_hot defaultInput).2.2.2.2.2⟩

/-- The concrete augmented output of scoring `dfOne` with `constModel`. -/
def outOne : DataFrame :=
  ⟨FEATURE_ORDER ++ ["churn_pred", "churn_proba"],
   [sampleRowFull ++ [("churn_pred", 1), ("churn_proba", 1)]]⟩

/-- C10: after a successful batch scoring, the preview handed to the screen
is the augmented frame's first 20 rows, while the downloadable CSV contains
a header line holding exactly the column names (no row-index column) and
one line for every row of the augmented frame. -/
theorem preview_head_download_full (m : Model) (df out : DataFrame)
    (h : batchScore m df = .scored out) :
    batchTab m df = ⟨none, some ⟨out.cols, out.rows.take 20⟩, some out.to_csv⟩ ∧
    (out.head 20).rows.length ≤ 20 ∧
    out.csvLines.length = out.rows.length + 1 ∧
    out.csvLines.getD 0 "" = String.intercalate "," out.cols ∧
    (∀ i, i < out.rows.length →
      out.csvLines.getD (i + 1) "" =
        String.intercalate "," (out.cols.map (fun c =>
          match Row.get (out.rows.getD i []) c with
          | some v => valToString v
          | none => ""))) ∧
    out.to_csv = String.intercalate "\n" out.csvLines ++ "\n" := by
  refine ⟨?_, ?_, ?_, rfl, ?_, rfl⟩
  · simp [batchTab, h, DataFrame.head]
  · simp only [DataFrame.head]
    rw [List.length_take]
    exact Nat.min_le_left _ _
  · simp [DataFrame.csvLines]
  · intro i hi
    unfold DataFrame.csvLines
    rw [List.getD_eq_getElem?_getD, List.getElem?_cons_succ, List.getElem?_map,
        List.getElem?_eq_getElem hi, List.getD_eq_getElem?_getD,
        List.getElem?_eq_getElem hi]
    rfl

/-- C10 witness: scoring the concrete one-row frame yields the concrete
augmented frame, whose preview and CSV download the preview/download theorem
then describes. -/
theorem preview_head_download_full_witness :
    batchScore constModel dfOne = .scored outOne ∧
    batchTab constModel dfOne =
      ⟨none, some ⟨outOne.cols, outOne.rows.take 20⟩, some outOne.to_csv⟩ :=
  ⟨by decide, (preview_head_download_full constModel dfOne outOne (by decide)).1⟩

end ChurnApp
